import Mathlib

/-!
Verification development for the SaggersRule media-upload service.

The JavaScript sources embedded here:
  * `media-api/src/routes/upload.js` — two router variants: v1 (first
    document) and v2 ("enhanced validation", second document), both mounted
    by `media-api/src/server.js`, whose error-handling middleware maps
    multer error codes to HTTP statuses;
  * `media-api/server.js` — standalone server with its own multer
    configuration (`upload.array('media', 10)`), silent file filter and a
    generic 500 error middleware.

Strings are modelled as `List Char` (`Str`); character-level operations
(`toLowerCase`, `trim`) are modelled on the ASCII range, which covers every
string the service manipulates.  The on-disk upload directory is modelled
as an association list from filename to file content; writing a file
prepends to it (lookup returns the most recently written content, matching
overwrite semantics).
-/

/-- Strings as lists of characters. -/
abbrev Str := List Char

/-- Embed a Lean string literal. -/
def str (s : String) : Str := s.data

/-- JS whitespace recognised by `trim` / `parseInt` (ASCII range). -/
def jsWhitespace (c : Char) : Bool :=
  c = ' ' ∨ c = '\t' ∨ c = '\n' ∨ c = '\r' ∨ c = '\x0b' ∨ c = '\x0c'

/-- JS `String.prototype.trim` (ASCII whitespace). -/
def jsTrim (s : Str) : Str :=
  ((s.dropWhile jsWhitespace).reverse.dropWhile jsWhitespace).reverse

/-- JS `String.prototype.toLowerCase` (ASCII range). -/
def toLowerStr (s : Str) : Str := s.map Char.toLower

/-- JS `String.prototype.split(sep)` for a one-character separator:
`"".split(",") = [""]`, `"a,,b".split(",") = ["a","","b"]`. -/
def splitChar (sep : Char) : Str → List Str
  | [] => [[]]
  | c :: cs =>
    if c = sep then [] :: splitChar sep cs
    else
      match splitChar sep cs with
      | t :: ts => (c :: t) :: ts
      | [] => [[c]]

/-- JS `x || d` for an optional string environment variable: the default is
used when the variable is unset or empty (empty string is falsy). -/
def jsOrStr (o : Option Str) (d : Str) : Str :=
  match o with
  | some s => if s = [] then d else s
  | none => d

/-! Node `path.extname` (posix) -/

/-- The suffix of `cs` starting at its last `'.'`, if any. -/
def takeExt : Str → Option Str
  | [] => none
  | c :: cs =>
    match takeExt cs with
    | some e => some e
    | none => if c = '.' then some (c :: cs) else none

/-- Node `path.extname` on a slash-free name: empty for a name without a dot,
for a dotfile (dot only at position 0) and for `".."`; otherwise the suffix
from the last dot. -/
def extnameBase (cs : Str) : Str :=
  if cs = ['.', '.'] then []
  else
    match cs with
    | [] => []
    | _ :: rest => (takeExt rest).getD []

/-- Strip trailing `'/'` characters (Node skips them). -/
def dropTrailingSlashes (cs : Str) : Str :=
  (cs.reverse.dropWhile (fun c => c = '/')).reverse

/-- The last path component. -/
def afterLastSlash (cs : Str) : Str :=
  (cs.reverse.takeWhile (fun c => c ≠ '/')).reverse

/-- Node `path.extname` (posix). -/
def extname (s : Str) : Str :=
  extnameBase (afterLastSlash (dropTrailingSlashes s))

/-! JS `parseInt` and numeric `||` -/

/-- Decimal digit value. -/
def decVal (c : Char) : Option Nat :=
  if c.isDigit then some (c.toNat - '0'.toNat) else none

/-- Hexadecimal digit value. -/
def hexVal (c : Char) : Option Nat :=
  if c.isDigit then some (c.toNat - '0'.toNat)
  else if 'a' ≤ c ∧ c ≤ 'f' then some (c.toNat - 'a'.toNat + 10)
  else if 'A' ≤ c ∧ c ≤ 'F' then some (c.toNat - 'A'.toNat + 10)
  else none

/-- Values of the longest digit run at the head of the string. -/
def takeDigits (val : Char → Option Nat) : Str → List Nat
  | [] => []
  | c :: cs =>
    match val c with
    | some d => d :: takeDigits val cs
    | none => []

/-- Value of a digit list, most significant first. -/
def digitsToNat (base : Nat) (ds : List Nat) : Nat :=
  ds.foldl (fun a d => a * base + d) 0

/-- Parse the leading digit run, `none` when there is none (JS `NaN`). -/
def parseRun (val : Char → Option Nat) (base : Nat) (cs : Str) : Option Nat :=
  match takeDigits val cs with
  | [] => none
  | ds => some (digitsToNat base ds)

/-- Magnitude part of `parseInt`: `0x`/`0X` selects base 16. -/
def parseUnsigned : Str → Option Nat
  | '0' :: 'x' :: rest => parseRun hexVal 16 rest
  | '0' :: 'X' :: rest => parseRun hexVal 16 rest
  | r => parseRun decVal 10 r

/-- JS `parseInt(s)` (radix argument omitted): skip leading whitespace,
optional sign, then decimal or `0x`-prefixed hexadecimal digits; `none`
models `NaN`. -/
def parseIntStr (s : Str) : Option Int :=
  match s.dropWhile jsWhitespace with
  | '-' :: r => (parseUnsigned r).map (fun n => -(n : Int))
  | '+' :: r => (parseUnsigned r).map (fun n => (n : Int))
  | r => (parseUnsigned r).map (fun n => (n : Int))

/-- JS `parseInt(process.env.X)`: an unset variable is `undefined`, whose
string coercion `"undefined"` parses to `NaN`. -/
def jsParseIntEnv (o : Option Str) : Option Int :=
  match o with
  | some s => parseIntStr s
  | none => none

/-- JS `x || d` on a number: `NaN`, `0` and `-0` are falsy. -/
def jsOrNum (o : Option Int) (d : Int) : Int :=
  match o with
  | some n => if n = 0 then d else n
  | none => d

/-! Environment, requests, responses, the upload directory -/

/-- The environment variables the media API reads. -/
structure Env where
  UPLOAD_PATH : Option Str := none
  PROCESSED_PATH : Option Str := none
  MAX_FILE_SIZE : Option Str := none
  ALLOWED_EXTENSIONS : Option Str := none
  NODE_ENV : Option Str := none
deriving DecidableEq

/-- The environment with every variable unset. -/
def defaultEnv : Env := {}

/-- One file of a multipart request: multer's `file.originalname`,
`file.mimetype`, and the uploaded byte stream (its `size` is the length of
`content`). -/
structure UFile where
  originalname : Str
  mimetype : Str
  content : Str
deriving DecidableEq

/-- Contents of the upload directory: filename to file content, most recent
write first (`List.lookup` returns the most recent write, matching
overwrite-on-write disk semantics). -/
abbrev Store := List (Str × Str)

/-- The observable parts of a JSON response of the upload endpoints:
HTTP status, the `error` and `message` fields, and for a successful single
upload the `file.url` and `file.filename` fields. -/
structure UploadResp where
  status : Nat
  error : Option Str := none
  message : Option Str := none
  fileUrl : Option Str := none
  fileFilename : Option Str := none
deriving DecidableEq

/-! Shared configuration expressions -/

/-- The default extension list literal. -/
def defaultExts : Str := str "jpg,jpeg,png,gif,webp,mp4,mov,avi"

/-- v1 `routes/upload.js`:
`(process.env.ALLOWED_EXTENSIONS || '...').split(',')`. -/
def allowedExtensionsV1 (env : Env) : List Str :=
  splitChar ',' (jsOrStr env.ALLOWED_EXTENSIONS defaultExts)

/-- v2 `routes/upload.js`: as v1 followed by
`.map(ext => ext.trim().toLowerCase())`. -/
def allowedExtensionsV2 (env : Env) : List Str :=
  (splitChar ',' (jsOrStr env.ALLOWED_EXTENSIONS defaultExts)).map
    (fun e => toLowerStr (jsTrim e))

/-- In `server.js`: `(process.env.ALLOWED_EXTENSIONS || '...').split(',')`. -/
def allowedExtensionsServer (env : Env) : List Str :=
  splitChar ',' (jsOrStr env.ALLOWED_EXTENSIONS defaultExts)

/-- The expression `path.extname(file.originalname).toLowerCase().slice(1)` — the
lowercased extension without its leading dot. -/
def extSlice (name : Str) : Str :=
  (toLowerStr (extname name)).drop 1

/-- v1 fileFilter acceptance test (`allowedExtensions.includes(...)`). -/
def fileFilterV1 (env : Env) (name : Str) : Bool :=
  extSlice name ∈ allowedExtensionsV1 env

/-- v2 fileFilter acceptance test. -/
def fileFilterV2 (env : Env) (name : Str) : Bool :=
  extSlice name ∈ allowedExtensionsV2 env

/-- The `server.js` fileFilter acceptance test (`cb(null, allowed.includes(ext))`,
a silent reject). -/
def fileFilterServer (env : Env) (name : Str) : Bool :=
  extSlice name ∈ allowedExtensionsServer env

/-- The `routes/upload.js` (v1 and v2) multer limit:
`parseInt(process.env.MAX_FILE_SIZE) || 104857600`. -/
def multerFileSizeLimit (env : Env) : Int :=
  jsOrNum (jsParseIntEnv env.MAX_FILE_SIZE) 104857600

/-- The `GET /upload/info` field `configuration.maxFileSize`:
`parseInt(process.env.MAX_FILE_SIZE) || 104857600`. -/
def infoMaxFileSize (env : Env) : Int :=
  jsOrNum (jsParseIntEnv env.MAX_FILE_SIZE) 104857600

/-- The `server.js` multer limit:
`parseInt(process.env.MAX_FILE_SIZE) || 100 * 1024 * 1024`. -/
def serverFileSizeLimit (env : Env) : Int :=
  jsOrNum (jsParseIntEnv env.MAX_FILE_SIZE) (100 * 1024 * 1024)

/-! Stored filenames -/

/-- Decimal string of a natural number (JS template interpolation of
`Date.now()`). -/
def natStr (n : Nat) : Str := (Nat.repr n).data

/-- v1 `storage.filename`: `` `${uuidv4()}${path.extname(file.originalname)}` ``. -/
def filenameV1 (uuid : Str) (originalname : Str) : Str :=
  uuid ++ extname originalname

/-- v2 `storage.filename`: the extension is lowercased first
(`path.extname(file.originalname).toLowerCase()`). -/
def filenameV2 (uuid : Str) (originalname : Str) : Str :=
  uuid ++ toLowerStr (extname originalname)

/-- The `server.js` `storage.filename`:
`` `${Date.now()}-${crypto.randomUUID()}${path.extname(file.originalname)}` ``. -/
def filenameServer (now : Nat) (uuid : Str) (originalname : Str) : Str :=
  natStr now ++ '-' :: (uuid ++ extname originalname)

/-! Error messages -/

/-- fileFilter rejection message:
`` `File type .${ext} is not allowed. Allowed types: ${allowed.join(', ')}` ``. -/
def filterErrMsg (allowed : List Str) (name : Str) : Str :=
  str "File type ." ++ extSlice name ++ str " is not allowed. Allowed types: "
    ++ List.intercalate (str ", ") allowed

/-- The `src/server.js` error middleware, final 500 message:
`process.env.NODE_ENV === 'development' ? error.message : 'Something went wrong'`. -/
def msg500 (env : Env) (errMsg : Str) : Str :=
  if env.NODE_ENV = some (str "development") then errMsg
  else str "Something went wrong"

/-- The `src/server.js` error middleware, `LIMIT_FILE_SIZE` message:
`` `Maximum file size is ${process.env.MAX_FILE_SIZE || '100MB'}` ``. -/
def msg413 (env : Env) : Str :=
  str "Maximum file size is " ++ jsOrStr env.MAX_FILE_SIZE (str "100MB")

/-- The `src/server.js` 404 catch-all response body. -/
def notFoundResp : UploadResp :=
  { status := 404
    error := some (str "Not found")
    message := some (str "The requested resource was not found") }

/-! Single-upload pipelines (v1 and v2 routers mounted on
`src/server.js`)

multer runs as route middleware *before* the handler: an error raised by
the `fileFilter` or by the `fileSize` limit is passed to `next(err)` and
lands in the app-level error-handling middleware of `src/server.js`; the
route handler (and in particular the v2 handler's
`catch (error.code === 'INVALID_FILE_TYPE')` branch) never runs for those
errors.  On any multer error the files already written for the request are
removed again, so the store is unchanged.  `fileFilter` runs when the file
header arrives, before any bytes are written, so a disallowed extension is
reported even for an oversized file. -/

/-- Route `POST /upload` with `upload.single('file')`, v1 router on the composed
app.  `req` is the file of the multipart `file` field, if any; `uuid` the
value produced by `uuidv4()`.  v1 image processing only writes a thumbnail
into the processed directory, which is not part of the upload-directory
store.  Returns the JSON response and the resulting upload directory. -/
def postUploadV1 (env : Env) (req : Option UFile) (uuid : Str)
    (store : Store) : UploadResp × Store :=
  match req with
  | none =>
    ({ status := 400
       error := some (str "No file uploaded")
       message := some (str "Please select a file to upload") }, store)
  | some f =>
    if ¬ fileFilterV1 env f.originalname then
      -- fileFilter `Error` (no `code`) → error middleware, final branch
      ({ status := 500
         error := some (str "Internal server error")
         message := some (msg500 env
           (filterErrMsg (allowedExtensionsV1 env) f.originalname)) }, store)
    else if (f.content.length : Int) > multerFileSizeLimit env then
      -- MulterError LIMIT_FILE_SIZE → error middleware → 413
      ({ status := 413
         error := some (str "File too large")
         message := some (msg413 env) }, store)
    else
      let name := filenameV1 uuid f.originalname
      ({ status := 200
         message := some (str "File uploaded successfully")
         fileUrl := some (str "/media/uploads/" ++ name)
         fileFilename := some name }, (name, f.content) :: store)

/-- Route `POST /upload` with `upload.single('file')`, v2 router on the composed
app.  The fileFilter error carries `code = 'INVALID_FILE_TYPE'`, which the
error middleware does not recognise, so it falls through to 500. -/
def postUploadV2 (env : Env) (req : Option UFile) (uuid : Str)
    (store : Store) : UploadResp × Store :=
  match req with
  | none =>
    ({ status := 400
       error := some (str "No file uploaded")
       message := some (str "Please select a file to upload") }, store)
  | some f =>
    if ¬ fileFilterV2 env f.originalname then
      ({ status := 500
         error := some (str "Internal server error")
         message := some (msg500 env
           (filterErrMsg (allowedExtensionsV2 env) f.originalname)) }, store)
    else if (f.content.length : Int) > multerFileSizeLimit env then
      ({ status := 413
         error := some (str "File too large")
         message := some (msg413 env) }, store)
    else
      let name := filenameV2 uuid f.originalname
      ({ status := 200
         message := some (str "File uploaded successfully")
         fileUrl := some (str "/media/" ++ name)
         fileFilename := some name }, (name, f.content) :: store)

/-! Multiple-upload pipelines -/

/-- The multer errors a v2 `upload.array('files', 10)` request can abort
with; `invalidType` carries the filter's error message. -/
inductive V2Err where
  | unexpectedFile
  | invalidType (errMsg : Str)
  | fileSize
deriving DecidableEq

/-- Per-file processing of `upload.array('files', 10)`: multer's wrapped
filter first checks the files left for the field (`maxCount`), counting
every arriving file, then runs the user fileFilter, then streams the file
subject to the size limit.  `gen i` is the `uuidv4()` value for the i-th
written file; `acc` the files written so far (most recent first). -/
def runV2Files (env : Env) (gen : Nat → Str) :
    List UFile → Nat → Nat → List (Str × Str) →
    Except V2Err (List (Str × Str))
  | [], _, _, acc => .ok acc
  | f :: rest, idx, left, acc =>
    if left = 0 then .error .unexpectedFile
    else if ¬ fileFilterV2 env f.originalname then
      .error (.invalidType (filterErrMsg (allowedExtensionsV2 env)
        f.originalname))
    else if (f.content.length : Int) > multerFileSizeLimit env then
      .error .fileSize
    else
      runV2Files env gen rest (idx + 1) (left - 1)
        ((filenameV2 (gen idx) f.originalname, f.content) :: acc)

/-- Route `POST /upload/multiple` (v2 router on the composed app):
`upload.array('files', 10)` then the handler; multer errors are mapped by
the `src/server.js` error middleware (`LIMIT_UNEXPECTED_FILE` → 400,
`LIMIT_FILE_SIZE` → 413, anything else → 500), and on an error the files
already written are removed again. -/
def postMultipleV2 (env : Env) (files : List UFile) (gen : Nat → Str)
    (store : Store) : UploadResp × Store :=
  match runV2Files env gen files 0 10 [] with
  | .error .unexpectedFile =>
    ({ status := 400
       error := some (str "Invalid file")
       message := some (str "Unexpected file field") }, store)
  | .error (.invalidType m) =>
    ({ status := 500
       error := some (str "Internal server error")
       message := some (msg500 env m) }, store)
  | .error .fileSize =>
    ({ status := 413
       error := some (str "File too large")
       message := some (msg413 env) }, store)
  | .ok written =>
    if written = [] then
      ({ status := 400
         error := some (str "No files uploaded")
         message := some (str "Please select files to upload") }, store)
    else
      ({ status := 200
         message := some (natStr written.length
           ++ str " files uploaded successfully") },
        written.reverse ++ store)

/-- The multer errors a `server.js` `upload.array('media', 10)` request can
abort with: its fileFilter never errors (silent reject), leaving only the
per-field count and the size limit. -/
inductive ServerErr where
  | unexpectedFile
  | fileSize
deriving DecidableEq

/-- Per-file processing of the standalone `server.js` upload: the count is
checked first (every arriving file counts), then the silent filter skips
disallowed extensions without error, then the size limit applies.  `now`
is the `Date.now()` timestamp. -/
def runServerFiles (env : Env) (gen : Nat → Str) (now : Nat) :
    List UFile → Nat → Nat → List (Str × Str) →
    Except ServerErr (List (Str × Str))
  | [], _, _, acc => .ok acc
  | f :: rest, idx, left, acc =>
    if left = 0 then .error .unexpectedFile
    else if ¬ fileFilterServer env f.originalname then
      runServerFiles env gen now rest idx (left - 1) acc
    else if (f.content.length : Int) > serverFileSizeLimit env then
      .error .fileSize
    else
      runServerFiles env gen now rest (idx + 1) (left - 1)
        ((filenameServer now (gen idx) f.originalname, f.content) :: acc)

/-- Route `POST /upload` of the standalone `server.js`:
`upload.array('media', 10)` then the handler.  Every multer error reaches
the app's generic error middleware, which answers
`500 {error: 'Internal server error'}` with no `message` field; the files
written before the error are removed again. -/
def postServerUpload (env : Env) (files : List UFile) (gen : Nat → Str)
    (now : Nat) (store : Store) : UploadResp × Store :=
  match runServerFiles env gen now files 0 10 [] with
  | .error _ =>
    ({ status := 500, error := some (str "Internal server error") }, store)
  | .ok written =>
    if written = [] then
      ({ status := 400, error := some (str "No files uploaded") }, store)
    else
      ({ status := 200
         message := some (natStr written.length
           ++ str " file(s) uploaded to SaggersRule media storage") },
        written.reverse ++ store)

/-! Static media server and media-info endpoint -/

/-- Returns `some rest` when `url = pre ++ rest`. -/
def stripLeading : Str → Str → Option Str
  | [], rest => some rest
  | _ :: _, [] => none
  | p :: ps, c :: cs => if c = p then stripLeading ps cs else none

/-- Modelled from the spec: the nginx static media server (the
`media-server` container on port 3036, whose configuration is not among the
sources) serves `GET {pre}{name}` by returning the file stored under
`name` in the upload directory, per the spec's round-trip law ("uploaded
file is retrievable by its returned URL") and the deployment guide's
`curl http://your-nas-ip:3036/media/uploads/[uploaded-filename]`. -/
def staticServe (pre : Str) (store : Store) (url : Str) : Option Str :=
  match stripLeading pre url with
  | none => none
  | some name => store.lookup name

/-- Response of `GET /media/:type/:id` (standalone `server.js`): status,
the `error` field, and the parsed metadata payload. -/
structure MediaResp (α : Type) where
  status : Nat
  error : Option Str := none
  payload : Option α := none
deriving DecidableEq

/-- The path `path.join(process.env.PROCESSED_PATH || '/app/processed',`
`` `${type}s`, `${id}.json`) `` — `path.join` modelled as interposing `'/'`
(exact for the normalized, slash-free segments the route produces). -/
def mediaMetadataPath (env : Env) (ty id : Str) : Str :=
  jsOrStr env.PROCESSED_PATH (str "/app/processed")
    ++ '/' :: (ty ++ str "s") ++ '/' :: (id ++ str ".json")

/-- Route `GET /media/:type/:id`: read the metadata file and return its parsed
JSON; any failure (unreadable file or `JSON.parse` throw) is caught and
answered `404 {error: 'Media not found'}`.  `fsRead` models
`fs.readFile` on the current disk, `parseJson` models `JSON.parse` into an
arbitrary JSON value type `α`. -/
def getMediaHandler {α : Type} (env : Env) (ty id : Str)
    (fsRead : Str → Option Str) (parseJson : Str → Option α) : MediaResp α :=
  match fsRead (mediaMetadataPath env ty id) with
  | none => { status := 404, error := some (str "Media not found") }
  | some s =>
    match parseJson s with
    | none => { status := 404, error := some (str "Media not found") }
    | some v => { status := 200, payload := some v }

/-! UUID shape -/

/-- Lowercase hexadecimal digit. -/
def isHexDigit (c : Char) : Bool :=
  c.isDigit || ('a' ≤ c && c ≤ 'f')

/-- The shape of a `uuidv4()` / `crypto.randomUUID()` result:
36 characters, hyphens at positions 8, 13, 18 and 23, lowercase hex
elsewhere, version nibble `4` and variant nibble in `8, 9, a, b`. -/
def isUuidV4 (s : Str) : Bool :=
  s.length = 36
    && s.all (fun c => isHexDigit c || c = '-')
    && ([8, 13, 18, 23].all (fun i => s.getD i ' ' = '-'))
    && s.getD 14 ' ' = '4'
    && ([('8' : Char), '9', 'a', 'b'].contains (s.getD 19 ' '))

theorem takeExt_eq_none_iff (cs : Str) : takeExt cs = none ↔ '.' ∉ cs := by
  induction cs with
  | nil => simp [takeExt]
  | cons c cs ih =>
    rw [takeExt]
    cases h : takeExt cs with
    | some e =>
      have : '.' ∈ cs := by
        by_contra hn
        rw [ih.mpr hn] at h
        exact Option.noConfusion h
      simp [this]
    | none =>
      have hn : '.' ∉ cs := ih.mp h
      by_cases hc : c = '.'
      · simp [hc]
      · simp [hc, hn, Ne.symm hc]

theorem takeExt_subset (cs e : Str) (h : takeExt cs = some e) :
    ∀ c ∈ e, c ∈ cs := by
  induction cs with
  | nil => exact Option.noConfusion h
  | cons c cs ih =>
    rw [takeExt] at h
    cases h2 : takeExt cs with
    | some e2 =>
      rw [h2] at h
      cases h
      exact fun x hx => List.mem_cons_of_mem _ (ih h2 x hx)
    | none =>
      rw [h2] at h
      by_cases hc : c = '.'
      · rw [if_pos hc] at h
        cases h
        exact fun x hx => hx
      · rw [if_neg hc] at h
        exact Option.noConfusion h

theorem takeExt_shape (cs e : Str) (h : takeExt cs = some e) :
    ∃ e', e = '.' :: e' ∧ '.' ∉ e' := by
  induction cs with
  | nil => exact Option.noConfusion h
  | cons c cs ih =>
    rw [takeExt] at h
    cases h2 : takeExt cs with
    | some e2 =>
      rw [h2] at h
      cases h
      exact ih h2
    | none =>
      rw [h2] at h
      by_cases hc : c = '.'
      · rw [if_pos hc] at h
        cases h
        exact ⟨cs, by rw [hc], takeExt_eq_none_iff cs |>.mp h2⟩
      · rw [if_neg hc] at h
        exact Option.noConfusion h

theorem takeExt_append (as bs : Str) (h : '.' ∉ as) :
    takeExt (as ++ bs) = takeExt bs := by
  induction as with
  | nil => rfl
  | cons a as ih =>
    have ha : a ≠ '.' := fun he => h (he ▸ List.mem_cons_self a as)
    have h2 : '.' ∉ as := fun hm => h (List.mem_cons_of_mem _ hm)
    rw [List.cons_append, takeExt, ih h2]
    cases takeExt bs with
    | some e => rfl
    | none => simp [ha]

theorem dropWhile_all_false {p : Char → Bool} (l : Str)
    (h : ∀ c ∈ l, p c = false) : l.dropWhile p = l := by
  cases l with
  | nil => rfl
  | cons c cs => simp [List.dropWhile_cons, h c (List.mem_cons_self c cs)]

theorem takeWhile_all_true {p : Char → Bool} (l : Str)
    (h : ∀ c ∈ l, p c = true) : l.takeWhile p = l := by
  induction l with
  | nil => rfl
  | cons c cs ih =>
    simp only [List.takeWhile_cons, h c (List.mem_cons_self c cs), if_true]
    rw [ih (fun x hx => h x (List.mem_cons_of_mem _ hx))]

theorem extname_of_clean (u e : Str) (hu : u ≠ []) (hdot : '.' ∉ u)
    (hslash : '/' ∉ u)
    (he : e = [] ∨ ∃ e', e = '.' :: e' ∧ '.' ∉ e' ∧ '/' ∉ e') :
    extname (u ++ e) = e := by
  have hse : '/' ∉ e := by
    rcases he with rfl | ⟨e', rfl, _, h2⟩
    · exact List.not_mem_nil '/'
    · intro hm
      rcases List.mem_cons.mp hm with h3 | h3
      · exact absurd h3 (by decide)
      · exact h2 h3
  have hsall : '/' ∉ u ++ e := by
    intro hm
    rcases List.mem_append.mp hm with h3 | h3
    · exact hslash h3
    · exact hse h3
  have h1 : dropTrailingSlashes (u ++ e) = u ++ e := by
    unfold dropTrailingSlashes
    rw [dropWhile_all_false]
    · exact List.reverse_reverse _
    · intro c hc
      have : c ∈ u ++ e := List.mem_reverse.mp hc
      exact decide_eq_false (fun h4 => hsall (h4 ▸ this))
  have h2 : afterLastSlash (u ++ e) = u ++ e := by
    unfold afterLastSlash
    rw [takeWhile_all_true]
    · exact List.reverse_reverse _
    · intro c hc
      have : c ∈ u ++ e := List.mem_reverse.mp hc
      exact decide_eq_true (fun h4 => hsall (h4 ▸ this))
  rw [extname, h1, h2]
  obtain ⟨a, u', rfl⟩ : ∃ a u', u = a :: u' := by
    cases u with
    | nil => exact absurd rfl hu
    | cons a u' => exact ⟨a, u', rfl⟩
  have ha : a ≠ '.' := fun h3 => hdot (h3 ▸ List.mem_cons_self a u')
  have hud : '.' ∉ u' := fun hm => hdot (List.mem_cons_of_mem _ hm)
  rw [List.cons_append, extnameBase]
  rw [if_neg (by intro h3; injection h3 with h4 _; exact ha h4)]
  rw [takeExt_append u' e hud]
  rcases he with rfl | ⟨e', rfl, hd', _⟩
  · rfl
  · rw [takeExt]
    rw [takeExt_eq_none_iff e' |>.mpr hd']
    rfl

theorem extname_shape (s : Str) :
    extname s = [] ∨
      ∃ e', extname s = '.' :: e' ∧ '.' ∉ e' ∧ '/' ∉ e' := by
  rw [extname]
  have hbase : '/' ∉ afterLastSlash (dropTrailingSlashes s) := by
    intro hm
    unfold afterLastSlash at hm
    have := List.mem_reverse.mp hm
    have := List.mem_takeWhile_imp this
    simp at this
  rcases hbm : afterLastSlash (dropTrailingSlashes s) with _ | ⟨b, rest⟩
  · exact Or.inl rfl
  · rw [hbm] at hbase
    rw [extnameBase]
    split
    · exact Or.inl rfl
    · cases h : takeExt rest with
      | none => exact Or.inl rfl
      | some ex =>
        obtain ⟨e', rfl, hd⟩ := takeExt_shape rest ex h
        refine Or.inr ⟨e', by simp [h], hd, ?_⟩
        intro hm
        exact hbase (List.mem_cons_of_mem _
          (takeExt_subset rest _ h _ (List.mem_cons_of_mem _ hm)))

def stemOf (s : Str) : Str := s.take (s.length - (extname s).length)

theorem stemOf_append (u e : Str) (h : extname (u ++ e) = e) :
    stemOf (u ++ e) = u := by
  unfold stemOf
  rw [h, List.length_append, Nat.add_sub_cancel, List.take_left]

theorem toLower_ne_of_ne_low (c t : Char) (ht : t.toNat < 97) (h : c ≠ t) :
    Char.toLower c ≠ t := by
  by_cases hc : c.toNat ≥ 65 ∧ c.toNat ≤ 90
  · simp only [Char.toLower, hc, and_self, if_true]
    intro he
    have h1 : c.toNat ≥ 65 := hc.1
    have hv : (Char.ofNat (c.toNat + 32)).toNat = c.toNat + 32 := by
      rw [Char.ofNat, dif_pos]
      · rfl
      · exact Or.inl (by omega)
    have := congrArg Char.toNat he
    rw [hv] at this
    omega
  · simpa [Char.toLower, hc] using h

theorem isUuidV4_spec (u : Str) (h : isUuidV4 u = true) :
    u.length = 36 ∧ '.' ∉ u ∧ '/' ∉ u ∧ u ≠ [] := by
  unfold isUuidV4 at h
  simp only [Bool.and_eq_true, decide_eq_true_eq, List.all_eq_true] at h
  obtain ⟨⟨⟨⟨hlen, hall⟩, _⟩, _⟩, _⟩ := h
  refine ⟨hlen, ?_, ?_, ?_⟩
  · intro hm
    have := hall _ hm
    exact absurd this (by decide)
  · intro hm
    have := hall _ hm
    exact absurd this (by decide)
  · intro hnil
    rw [hnil] at hlen
    exact absurd hlen (by decide)

theorem digitChar_ne (n : Nat) :
    Nat.digitChar n ≠ '.' ∧ Nat.digitChar n ≠ '/' := by
  by_cases h : n < 16
  · interval_cases n <;> exact ⟨by decide, by decide⟩
  · have h0 : Nat.digitChar n = '*' := by
      unfold Nat.digitChar
      repeat rw [if_neg (by omega)]
    rw [h0]
    exact ⟨by decide, by decide⟩

theorem toDigitsCore_ne (b f n : Nat) (ds : Str)
    (hds : ∀ c ∈ ds, c ≠ '.' ∧ c ≠ '/') :
    ∀ c ∈ Nat.toDigitsCore b f n ds, c ≠ '.' ∧ c ≠ '/' := by
  induction f generalizing n ds with
  | zero => simpa [Nat.toDigitsCore] using hds
  | succ f ih =>
    rw [Nat.toDigitsCore]
    split
    · intro c hc
      rcases List.mem_cons.mp hc with rfl | hc2
      · exact digitChar_ne _
      · exact hds c hc2
    · refine ih _ _ ?_
      intro c hc
      rcases List.mem_cons.mp hc with rfl | hc2
      · exact digitChar_ne _
      · exact hds c hc2

theorem toDigitsCore_len (b f n : Nat) (ds : Str) :
    ds.length ≤ (Nat.toDigitsCore b f n ds).length := by
  induction f generalizing n ds with
  | zero => simp [Nat.toDigitsCore]
  | succ f ih =>
    rw [Nat.toDigitsCore]
    split
    · simp
    · exact Nat.le_trans (by simp) (ih (n / b) (Nat.digitChar (n % b) :: ds))

theorem natStr_clean (n : Nat) :
    (∀ c ∈ natStr n, c ≠ '.' ∧ c ≠ '/') ∧ natStr n ≠ [] := by
  have hns : natStr n = Nat.toDigitsCore 10 (n + 1) n [] := rfl
  constructor
  · rw [hns]
    exact toDigitsCore_ne 10 (n + 1) n [] (by intro c hc; cases hc)
  · rw [hns, Nat.toDigitsCore]
    split
    · intro h
      exact List.noConfusion h
    · intro h
      have := toDigitsCore_len 10 n (n / 10) [Nat.digitChar (n % 10)]
      rw [h] at this
      simp at this

theorem toLowerStr_shape (s : Str)
    (he : s = [] ∨ ∃ e', s = '.' :: e' ∧ '.' ∉ e' ∧ '/' ∉ e') :
    toLowerStr s = [] ∨
      ∃ e', toLowerStr s = '.' :: e' ∧ '.' ∉ e' ∧ '/' ∉ e' := by
  rcases he with rfl | ⟨e', rfl, hd, hs⟩
  · exact Or.inl rfl
  · right
    refine ⟨toLowerStr e', ?_, ?_, ?_⟩
    · show List.map Char.toLower ('.' :: e') = '.' :: List.map Char.toLower e'
      rw [List.map_cons]
      rw [show Char.toLower '.' = '.' from by decide]
    · intro hm
      obtain ⟨c, hc, hcl⟩ := List.mem_map.mp hm
      exact toLower_ne_of_ne_low c '.' (by decide)
        (fun hh => hd (hh ▸ hc)) hcl
    · intro hm
      obtain ⟨c, hc, hcl⟩ := List.mem_map.mp hm
      exact toLower_ne_of_ne_low c '/' (by decide)
        (fun hh => hs (hh ▸ hc)) hcl

theorem uploadFilename_scheme (uuid orig : Str) (now : Nat)
    (h : isUuidV4 uuid = true) :
    extname (filenameV1 uuid orig) = extname orig
    ∧ stemOf (filenameV1 uuid orig) = uuid
    ∧ extname (filenameV2 uuid orig) = toLowerStr (extname orig)
    ∧ stemOf (filenameV2 uuid orig) = uuid
    ∧ stemOf (filenameServer now uuid orig) = natStr now ++ '-' :: uuid
    ∧ isUuidV4 (stemOf (filenameServer now uuid orig)) = false := by
  obtain ⟨hlen, hdot, hslash, hne⟩ := isUuidV4_spec uuid h
  have he := extname_shape orig
  have h1 : extname (filenameV1 uuid orig) = extname orig :=
    extname_of_clean uuid _ hne hdot hslash he
  have h2 : extname (filenameV2 uuid orig) = toLowerStr (extname orig) :=
    extname_of_clean uuid _ hne hdot hslash (toLowerStr_shape _ he)
  obtain ⟨hnsc, hnsne⟩ := natStr_clean now
  have hu'dot : '.' ∉ natStr now ++ '-' :: uuid := by
    intro hm
    rcases List.mem_append.mp hm with hm1 | hm2
    · exact (hnsc _ hm1).1 rfl
    · rcases List.mem_cons.mp hm2 with hm3 | hm4
      · exact absurd hm3 (by decide)
      · exact hdot hm4
  have hu'slash : '/' ∉ natStr now ++ '-' :: uuid := by
    intro hm
    rcases List.mem_append.mp hm with hm1 | hm2
    · exact (hnsc _ hm1).2 rfl
    · rcases List.mem_cons.mp hm2 with hm3 | hm4
      · exact absurd hm3 (by decide)
      · exact hslash hm4
  have hu'ne : natStr now ++ '-' :: uuid ≠ [] := by
    intro h0
    rw [List.append_eq_nil] at h0
    exact List.noConfusion h0.2
  have hsplit : filenameServer now uuid orig
      = (natStr now ++ '-' :: uuid) ++ extname orig := by
    rw [filenameServer, List.append_assoc, List.cons_append]
  have h3 : extname ((natStr now ++ '-' :: uuid) ++ extname orig)
      = extname orig :=
    extname_of_clean _ _ hu'ne hu'dot hu'slash he
  have h3s : stemOf (filenameServer now uuid orig)
      = natStr now ++ '-' :: uuid := by
    rw [hsplit]
    exact stemOf_append _ _ h3
  refine ⟨h1, stemOf_append _ _ h1, h2, stemOf_append _ _ h2, h3s, ?_⟩
  rw [h3s]
  have hlnn : (natStr now ++ '-' :: uuid).length ≠ 36 := by
    rw [List.length_append, List.length_cons, hlen]
    have : 0 < (natStr now).length := List.length_pos.mpr hnsne
    omega
  rw [isUuidV4, decide_eq_false hlnn]
  simp

theorem stripLeading_append (p r : Str) : stripLeading p (p ++ r) = some r := by
  induction p with
  | nil => rfl
  | cons c cs ih => simp [stripLeading, ih]

theorem map_eq_self_of_forall {α : Type} (f : α → α) (l : List α)
    (h : ∀ a ∈ l, f a = a) : l.map f = l := by
  induction l with
  | nil => rfl
  | cons a as ih =>
    rw [List.map_cons, h a (List.mem_cons_self a as),
      ih (fun x hx => h x (List.mem_cons_of_mem _ hx))]

theorem runServerFiles_overflow (env : Env) (gen : Nat → Str) (now : Nat) :
    ∀ (files : List UFile) (idx left : Nat) (acc : List (Str × Str)),
      left < files.length →
      ∃ e, runServerFiles env gen now files idx left acc = .error e := by
  intro files
  induction files with
  | nil =>
    intro idx left acc h
    simp at h
  | cons f rest ih =>
    intro idx left acc h
    rw [runServerFiles]
    by_cases h0 : left = 0
    · exact ⟨.unexpectedFile, by rw [if_pos h0]⟩
    · rw [if_neg h0]
      have hlt : left - 1 < rest.length := by
        rw [List.length_cons] at h
        omega
      by_cases hf : fileFilterServer env f.originalname = true
      · rw [if_neg (by simp [hf])]
        by_cases hs : (f.content.length : Int) > serverFileSizeLimit env
        · exact ⟨.fileSize, by rw [if_pos hs]⟩
        · rw [if_neg hs]
          exact ih _ _ _ hlt
      · rw [if_pos (by simp [hf])]
        exact ih _ _ _ hlt

theorem runV2Files_overflow (env : Env) (gen : Nat → Str) :
    ∀ (files : List UFile) (idx left : Nat) (acc : List (Str × Str)),
      left < files.length →
      (∀ f ∈ files.take left, fileFilterV2 env f.originalname = true
        ∧ ¬ (f.content.length : Int) > multerFileSizeLimit env) →
      runV2Files env gen files idx left acc = .error .unexpectedFile := by
  intro files
  induction files with
  | nil =>
    intro idx left acc h _
    simp at h
  | cons f rest ih =>
    intro idx left acc h hv
    rw [runV2Files]
    by_cases h0 : left = 0
    · rw [if_pos h0]
    · rw [if_neg h0]
      obtain ⟨l, rfl⟩ : ∃ l, left = l + 1 := ⟨left - 1, by omega⟩
      have hf := hv f (by simp [List.take_succ_cons])
      rw [if_neg (by simp [hf.1]), if_neg hf.2]
      refine ih _ _ _ ?_ ?_
      · rw [List.length_cons] at h
        omega
      · intro g hg
        refine hv g ?_
        rw [List.take_succ_cons]
        simp
        right
        simpa using hg

theorem staticServe_hit (pre name c : Str) (store : Store) :
    staticServe pre ((name, c) :: store) (pre ++ name) = some c := by
  rw [staticServe, stripLeading_append]
  exact List.lookup_cons_self

/-! Claims -/

/-- C6: a single-upload POST with no file in the expected multipart field is
answered 400 with an error body stating that no file was uploaded, and the
upload directory is unchanged — for the v1 route, the v2 route and the
standalone `server.js` (empty `media` field). -/
theorem noFile_upload_400 :
    ∀ (env : Env) (uuid : Str) (gen : Nat → Str) (now : Nat) (store : Store),
      postUploadV1 env none uuid store
        = ({ status := 400, error := some (str "No file uploaded"),
             message := some (str "Please select a file to upload") }, store)
      ∧ postUploadV2 env none uuid store
        = ({ status := 400, error := some (str "No file uploaded"),
             message := some (str "Please select a file to upload") }, store)
      ∧ postServerUpload env [] gen now store
        = ({ status := 400, error := some (str "No files uploaded") }, store) := by
  intro env uuid gen now store
  refine ⟨rfl, rfl, ?_⟩
  rw [postServerUpload]
  rfl

/-- C1: a successful single-file upload answers 200 with
`url = {media route prefix} ++ {stored filename}`, the file is written into
the upload directory under exactly that filename, and a GET of the returned
URL against the static media server returns the stored file — for the v1
route (prefix `/media/uploads/`) and the v2 route (prefix `/media/`). -/
theorem upload_roundtrip (env : Env) (f : UFile) (uuid : Str) (store : Store) :
    (fileFilterV1 env f.originalname = true →
      (f.content.length : Int) ≤ multerFileSizeLimit env →
      (postUploadV1 env (some f) uuid store).1.status = 200
      ∧ (postUploadV1 env (some f) uuid store).1.fileUrl
          = some (str "/media/uploads/" ++ filenameV1 uuid f.originalname)
      ∧ (postUploadV1 env (some f) uuid store).2
          = (filenameV1 uuid f.originalname, f.content) :: store
      ∧ staticServe (str "/media/uploads/")
          (postUploadV1 env (some f) uuid store).2
          (str "/media/uploads/" ++ filenameV1 uuid f.originalname)
          = some f.content)
    ∧ (fileFilterV2 env f.originalname = true →
      (f.content.length : Int) ≤ multerFileSizeLimit env →
      (postUploadV2 env (some f) uuid store).1.status = 200
      ∧ (postUploadV2 env (some f) uuid store).1.fileUrl
          = some (str "/media/" ++ filenameV2 uuid f.originalname)
      ∧ (postUploadV2 env (some f) uuid store).2
          = (filenameV2 uuid f.originalname, f.content) :: store
      ∧ staticServe (str "/media/")
          (postUploadV2 env (some f) uuid store).2
          (str "/media/" ++ filenameV2 uuid f.originalname)
          = some f.content) := by
  constructor
  · intro h1 hsz
    have hns : ¬ (f.content.length : Int) > multerFileSizeLimit env :=
      not_lt.mpr hsz
    have e1 : postUploadV1 env (some f) uuid store
        = ({ status := 200,
             message := some (str "File uploaded successfully")
             fileUrl := some (str "/media/uploads/"
               ++ filenameV1 uuid f.originalname)
             fileFilename := some (filenameV1 uuid f.originalname) },
           (filenameV1 uuid f.originalname, f.content) :: store) := by
      rw [postUploadV1]
      rw [if_neg (by simp [h1]), if_neg hns]
    refine ⟨by rw [e1], by rw [e1], by rw [e1], ?_⟩
    rw [e1]
    exact staticServe_hit _ _ _ _
  · intro h2 hsz
    have hns : ¬ (f.content.length : Int) > multerFileSizeLimit env :=
      not_lt.mpr hsz
    have e2 : postUploadV2 env (some f) uuid store
        = ({ status := 200,
             message := some (str "File uploaded successfully")
             fileUrl := some (str "/media/" ++ filenameV2 uuid f.originalname)
             fileFilename := some (filenameV2 uuid f.originalname) },
           (filenameV2 uuid f.originalname, f.content) :: store) := by
      rw [postUploadV2]
      rw [if_neg (by simp [h2]), if_neg hns]
    refine ⟨by rw [e2], by rw [e2], by rw [e2], ?_⟩
    rw [e2]
    exact staticServe_hit _ _ _ _

/-- C1 witness: concrete upload of `a.jpg` with content `abc`. -/
theorem upload_roundtrip_witness :
    (postUploadV1 defaultEnv
      (some ⟨str "a.jpg", str "image/jpeg", str "abc"⟩) (str "u1") []).1.status
      = 200
    ∧ staticServe (str "/media/uploads/")
        (postUploadV1 defaultEnv
          (some ⟨str "a.jpg", str "image/jpeg", str "abc"⟩) (str "u1") []).2
        (str "/media/uploads/" ++ filenameV1 (str "u1") (str "a.jpg"))
        = some (str "abc") := by
  have h := (upload_roundtrip defaultEnv
    ⟨str "a.jpg", str "image/jpeg", str "abc"⟩ (str "u1") []).1
    (by decide) (by decide)
  exact ⟨h.1, h.2.2.2⟩

/-- C3 (code bug): the v2 fileFilter accepts a file exactly when its
lowercased, dot-stripped extension is in the configured allowed list; but a
rejected upload is answered 500, not 400: the multer fileFilter error
(code `INVALID_FILE_TYPE`) bypasses the route handler — whose own catch
branch maps that code to 400 — and falls through the app error middleware
to the generic 500 branch.  Nothing is written to disk. -/
theorem fileFilter_behavior :
    (∀ (env : Env) (name : Str),
      fileFilterV2 env name = decide (extSlice name ∈ allowedExtensionsV2 env))
    ∧ fileFilterV2 defaultEnv (str "photo.jpg") = true
    ∧ fileFilterV2 defaultEnv (str "notes.txt") = false
    ∧ (postUploadV2 defaultEnv
        (some ⟨str "notes.txt", str "text/plain", str "x"⟩)
        (str "u") []).1.status = 500
    ∧ (postUploadV2 defaultEnv
        (some ⟨str "notes.txt", str "text/plain", str "x"⟩)
        (str "u") []).1.error = some (str "Internal server error")
    ∧ (postUploadV2 defaultEnv
        (some ⟨str "notes.txt", str "text/plain", str "x"⟩)
        (str "u") []).2 = [] :=
  ⟨fun _ _ => rfl, by decide, by decide, by decide, by decide, by decide⟩

/-- C4 (amended): an upload whose file passes the route's own type filter
but exceeds the configured maximum size is answered 413 with a `message`
field by that route on the composed app — the v1 route under the v1
filter, the v2 route under the v2 filter — and nothing is stored. -/
theorem oversize_413 (env : Env) (f : UFile) (uuid : Str) (store : Store) :
    (fileFilterV1 env f.originalname = true →
      (f.content.length : Int) > multerFileSizeLimit env →
      (postUploadV1 env (some f) uuid store).1.status = 413
      ∧ (postUploadV1 env (some f) uuid store).1.message = some (msg413 env)
      ∧ (postUploadV1 env (some f) uuid store).2 = store)
    ∧ (fileFilterV2 env f.originalname = true →
      (f.content.length : Int) > multerFileSizeLimit env →
      (postUploadV2 env (some f) uuid store).1.status = 413
      ∧ (postUploadV2 env (some f) uuid store).1.message = some (msg413 env)
      ∧ (postUploadV2 env (some f) uuid store).2 = store) := by
  constructor
  · intro h1 hsz
    have e1 : postUploadV1 env (some f) uuid store
        = ({ status := 413, error := some (str "File too large")
             message := some (msg413 env) }, store) := by
      rw [postUploadV1]
      rw [if_neg (by simp [h1]), if_pos hsz]
    exact ⟨by rw [e1], by rw [e1], by rw [e1]⟩
  · intro h2 hsz
    have e2 : postUploadV2 env (some f) uuid store
        = ({ status := 413, error := some (str "File too large")
             message := some (msg413 env) }, store) := by
      rw [postUploadV2]
      rw [if_neg (by simp [h2]), if_pos hsz]
    exact ⟨by rw [e2], by rw [e2], by rw [e2]⟩

/-- C4 witness: `MAX_FILE_SIZE=1`, a 3-byte `a.jpg`. -/
theorem oversize_413_witness :
    (postUploadV2 { defaultEnv with MAX_FILE_SIZE := some (str "1") }
      (some ⟨str "a.jpg", str "image/jpeg", str "abc"⟩) (str "u") []).1.status
      = 413
    ∧ (postUploadV2 { defaultEnv with MAX_FILE_SIZE := some (str "1") }
        (some ⟨str "a.jpg", str "image/jpeg", str "abc"⟩)
        (str "u") []).1.message
      = some (msg413 { defaultEnv with MAX_FILE_SIZE := some (str "1") }) := by
  have h := (oversize_413 { defaultEnv with MAX_FILE_SIZE := some (str "1") }
    ⟨str "a.jpg", str "image/jpeg", str "abc"⟩ (str "u") []).2
    (by decide) (by decide)
  exact ⟨h.1, h.2.1⟩

/-- C4 counterexample: on the standalone `server.js` an oversized upload
(`MAX_FILE_SIZE=1`, 2-byte `a.jpg` in the `media` field) is answered 500 by
the generic error middleware, not 413, and the body has no `message`
field. -/
theorem oversize_standalone_500 :
    (postServerUpload { defaultEnv with MAX_FILE_SIZE := some (str "1") }
      [⟨str "a.jpg", str "image/jpeg", str "ab"⟩]
      (fun _ => str "u") 0 []).1.status = 500
    ∧ (postServerUpload { defaultEnv with MAX_FILE_SIZE := some (str "1") }
        [⟨str "a.jpg", str "image/jpeg", str "ab"⟩]
        (fun _ => str "u") 0 []).1.message = none := by decide

/-- C5 (amended): every non-200 response of the v2 service (v1/v2 single
upload, v2 multiple upload, the app-level 404 handler) carries a `message`
field. -/
theorem v2_error_bodies_have_message :
    ∀ (env : Env) (req : Option UFile) (uuid : Str) (files : List UFile)
      (gen : Nat → Str) (store : Store),
      ((postUploadV1 env req uuid store).1.status ≠ 200 →
        (postUploadV1 env req uuid store).1.message.isSome = true)
      ∧ ((postUploadV2 env req uuid store).1.status ≠ 200 →
        (postUploadV2 env req uuid store).1.message.isSome = true)
      ∧ ((postMultipleV2 env files gen store).1.status ≠ 200 →
        (postMultipleV2 env files gen store).1.message.isSome = true)
      ∧ notFoundResp.message.isSome = true := by
  intro env req uuid files gen store
  refine ⟨?_, ?_, ?_, rfl⟩
  · intro _
    cases req with
    | none => rfl
    | some f =>
      rw [postUploadV1]
      split_ifs <;> rfl
  · intro _
    cases req with
    | none => rfl
    | some f =>
      rw [postUploadV2]
      split_ifs <;> rfl
  · intro _
    rw [postMultipleV2]
    cases hr : runV2Files env gen files 0 10 [] with
    | error e => cases e <;> rfl
    | ok w =>
      cases w with
      | nil => rfl
      | cons a as => rfl

/-- C5 witness: the no-file 400 body of the v2 single upload has a
`message` field. -/
theorem v2_error_bodies_witness :
    (postUploadV2 defaultEnv none (str "u") []).1.message.isSome = true :=
  (v2_error_bodies_have_message defaultEnv none (str "u") []
    (fun _ => str "u") []).2.1 (by decide)

/-- C5 counterexample: the standalone `server.js` 400 body
(`{error: 'No files uploaded'}`) has no `message` field. -/
theorem standalone_error_no_message :
    (postServerUpload defaultEnv [] (fun _ => str "u") 0 []).1.status = 400
    ∧ (postServerUpload defaultEnv [] (fun _ => str "u") 0 []).1.error
        = some (str "No files uploaded")
    ∧ (postServerUpload defaultEnv [] (fun _ => str "u") 0 []).1.message
        = none := by decide

/-- C7 (amended): the multer file-size limit and the `GET /upload/info`
`maxFileSize` value agree for every environment, and both equal the
`parseInt` of `MAX_FILE_SIZE` when that parses to a nonzero number and
104857600 otherwise (also when it parses to 0, since `0` is falsy in
`parseInt(..) || 104857600`). -/
theorem maxFileSize_agree :
    ∀ env : Env,
      multerFileSizeLimit env = infoMaxFileSize env
      ∧ multerFileSizeLimit env
          = (match jsParseIntEnv env.MAX_FILE_SIZE with
             | some n => if n = 0 then 104857600 else n
             | none => 104857600) :=
  fun _ => ⟨rfl, rfl⟩

/-- C7 counterexample: `MAX_FILE_SIZE=0` parses to the number 0, yet the
enforced and reported limit is the 104857600 default, not 0. -/
theorem maxFileSize_zero_env :
    jsParseIntEnv (some (str "0")) = some 0
    ∧ multerFileSizeLimit
        { defaultEnv with MAX_FILE_SIZE := some (str "0") } = 104857600
    ∧ infoMaxFileSize
        { defaultEnv with MAX_FILE_SIZE := some (str "0") } = 104857600
    ∧ (104857600 : Int) ≠ 0 := by decide

/-- C8: `GET /media/:type/:id` reads
`{PROCESSED_PATH}/{type}s/{id}.json`; an unreadable file is answered
`404 {error: 'Media not found'}`, a readable file with valid JSON is
answered 200 with the parsed content. -/
theorem getMedia_contract {α : Type} (env : Env) (ty id : Str)
    (fsRead : Str → Option Str) (parseJson : Str → Option α) :
    mediaMetadataPath env ty id
      = jsOrStr env.PROCESSED_PATH (str "/app/processed")
        ++ '/' :: (ty ++ str "s") ++ '/' :: (id ++ str ".json")
    ∧ (fsRead (mediaMetadataPath env ty id) = none →
        getMediaHandler env ty id fsRead parseJson
          = { status := 404, error := some (str "Media not found"),
              payload := none })
    ∧ (∀ (s : Str) (v : α),
        fsRead (mediaMetadataPath env ty id) = some s →
        parseJson s = some v →
        getMediaHandler env ty id fsRead parseJson
          = { status := 200, error := none, payload := some v }) := by
  refine ⟨rfl, ?_, ?_⟩
  · intro h
    rw [getMediaHandler, h]
  · intro s v h1 h2
    simp [getMediaHandler, h1, h2]

/-- C8 witness: a missing metadata file and a readable, parsable one. -/
theorem getMedia_contract_witness :
    getMediaHandler (α := Nat) defaultEnv (str "image") (str "abc")
      (fun _ => none) (fun _ => none)
      = { status := 404, error := some (str "Media not found"),
          payload := none }
    ∧ getMediaHandler (α := Nat) defaultEnv (str "image") (str "abc")
        (fun _ => some (str "7")) (fun _ => some 7)
      = { status := 200, error := none, payload := some 7 } := by
  constructor
  · exact (getMedia_contract defaultEnv (str "image") (str "abc")
      (fun _ => none) (fun _ => none)).2.1 rfl
  · exact (getMedia_contract defaultEnv (str "image") (str "abc")
      (fun _ => some (str "7")) (fun _ => some 7)).2.2 (str "7") 7 rfl rfl

/-- C9 (amended): the v1 and v2 file filters agree on every filename
whenever every entry of the comma-split `ALLOWED_EXTENSIONS` value is
unchanged by trimming and lowercasing — in particular for the default
list. -/
theorem fileFilter_v1_v2_agree (env : Env) (name : Str)
    (h : ∀ e ∈ splitChar ',' (jsOrStr env.ALLOWED_EXTENSIONS defaultExts),
      toLowerStr (jsTrim e) = e) :
    fileFilterV1 env name = fileFilterV2 env name := by
  unfold fileFilterV1 fileFilterV2 allowedExtensionsV1 allowedExtensionsV2
  rw [map_eq_self_of_forall _ _ h]

/-- C9 witness: the filters agree on `a.jpg` under the default list. -/
theorem fileFilter_v1_v2_agree_witness :
    fileFilterV1 defaultEnv (str "a.jpg") = fileFilterV2 defaultEnv (str "a.jpg") :=
  fileFilter_v1_v2_agree defaultEnv (str "a.jpg") (by decide)

/-- C9 counterexample: with `ALLOWED_EXTENSIONS=JPG` the v1 filter rejects
`a.JPG` (it compares the lowercased extension against the unnormalised
list) while the v2 filter accepts it. -/
theorem fileFilter_v1_v2_differ :
    fileFilterV1 { defaultEnv with ALLOWED_EXTENSIONS := some (str "JPG") }
      (str "a.JPG") = false
    ∧ fileFilterV2 { defaultEnv with ALLOWED_EXTENSIONS := some (str "JPG") }
        (str "a.JPG") = true := by decide

/-- C10 (amended): a request with more than 10 files whose first ten pass
validation is aborted with multer's `LIMIT_UNEXPECTED_FILE`: the v2
service answers 400 (`Invalid file` / `Unexpected file field`), the
standalone `server.js` answers 500 via its generic error middleware; in
both cases the aborted request leaves the upload directory unchanged (so
in particular no file beyond the tenth is stored). -/
theorem multiUpload_limit (env : Env) (files : List UFile) (gen : Nat → Str)
    (now : Nat) (store : Store) (h : 10 < files.length)
    (hv : ∀ f ∈ files.take 10, fileFilterV2 env f.originalname = true
      ∧ ¬ (f.content.length : Int) > multerFileSizeLimit env) :
    postMultipleV2 env files gen store
      = ({ status := 400, error := some (str "Invalid file"),
           message := some (str "Unexpected file field") }, store)
    ∧ (postServerUpload env files gen now store).1.status = 500
    ∧ (postServerUpload env files gen now store).2 = store := by
  have h1 := runV2Files_overflow env gen files 0 10 [] h hv
  obtain ⟨e, h2⟩ := runServerFiles_overflow env gen now files 0 10 [] h
  refine ⟨?_, ?_, ?_⟩
  · rw [postMultipleV2, h1]
  · rw [postServerUpload, h2]
  · rw [postServerUpload, h2]

/-- C10 witness: eleven valid one-byte `a.jpg` files. -/
theorem multiUpload_limit_witness :
    postMultipleV2 defaultEnv
      (List.replicate 11 ⟨str "a.jpg", str "image/jpeg", str "x"⟩)
      (fun _ => str "u") []
      = ({ status := 400, error := some (str "Invalid file"),
           message := some (str "Unexpected file field") }, []) :=
  (multiUpload_limit defaultEnv
    (List.replicate 11 ⟨str "a.jpg", str "image/jpeg", str "x"⟩)
    (fun _ => str "u") 0 [] (by decide) (by decide)).1

/-- C10 counterexample: eleven valid files in the standalone `server.js`
`media` field are answered 500, not 400. -/
theorem multiUpload_limit_standalone_500 :
    (postServerUpload defaultEnv
      (List.replicate 11 ⟨str "a.jpg", str "image/jpeg", str "x"⟩)
      (fun _ => str "u") 0 []).1.status = 500
    ∧ (postServerUpload defaultEnv
        (List.replicate 11 ⟨str "a.jpg", str "image/jpeg", str "x"⟩)
        (fun _ => str "u") 0 []).1.status ≠ 400 := by decide

/-- C2 counterexample: the standalone `server.js` saves an uploaded `a.jpg`
under `{Date.now()}-{uuid}{ext}` — a 54-character name that cannot be any
UUID followed by the original extension (which would have 40 characters). -/
theorem filenameServer_not_uuid_name :
    ¬ ∃ w : Str, isUuidV4 w = true
      ∧ filenameServer 1700000000000
          (str "123e4567-e89b-42d3-a456-426614174000") (str "a.jpg")
        = w ++ extname (str "a.jpg") := by
  rintro ⟨w, hw, heq⟩
  have hl := congrArg List.length heq
  rw [List.length_append] at hl
  have h36 : w.length = 36 := (isUuidV4_spec w hw).1
  rw [h36] at hl
  rw [show (filenameServer 1700000000000
      (str "123e4567-e89b-42d3-a456-426614174000") (str "a.jpg")).length = 54
    from by decide] at hl
  rw [show (extname (str "a.jpg")).length = 4 from by decide] at hl
  omega

/-- C2 witness: for a UUID-shaped name the v1/v2 stored names decompose as
UUID stem plus extension, while the `server.js` stem is not a UUID. -/
theorem uploadFilename_scheme_witness :
    stemOf (filenameV1 (str "123e4567-e89b-42d3-a456-426614174000")
      (str "b.PNG")) = str "123e4567-e89b-42d3-a456-426614174000"
    ∧ isUuidV4 (stemOf (filenameServer 1700000000000
        (str "123e4567-e89b-42d3-a456-426614174000") (str "b.PNG"))) = false := by
  have h := uploadFilename_scheme
    (str "123e4567-e89b-42d3-a456-426614174000") (str "b.PNG")
    1700000000000 (by decide)
  exact ⟨h.2.1, h.2.2.2.2.2⟩
